import Mathlib

/-!
# Fleetspeak client connector — verification of the channel protocol

A shallow embedding of the Fleetspeak client connector's framing codec,
handshake, message read/write paths and heartbeat throttle, translated from
`crates/fleetspeak/src/io.rs`, `src/client/connection.rs`, `src/connection.rs`,
`src/error.rs` and `src/lib.rs`.

Byte streams are modelled as `List Nat` (one `Nat` per byte, values `< 256`
wherever an encoder produced them).  Reading from a stream consumes a prefix
of the list; writing produces a list of bytes.  Fallible operations return
`Except` with the error taxonomy of `src/error.rs`.

The envelope serialization is the Protocol Buffers wire format of the
`fleetspeak.common.Message` schema (a vendored external collaborator),
restricted to the envelope fields the connector reads and writes:
`source.service_name` (field 2), `destination.service_name` (field 4),
`message_type` (field 5) and `data.type_url`/`data.value` (field 7, a
`google.protobuf.Any`).  Fields carrying default values are skipped and
fields are emitted in increasing field-number order, exactly as the
generated `rust-protobuf`/`prost` serializers do.
-/

namespace Fleetspeak

/-! ## Protocol Buffers varint -/

/-- Base-128 varint encoder, structured with explicit fuel (the value itself
bounds the recursion depth) so that the definition reduces by kernel
computation.  With fuel `0` the remaining value is emitted modulo 128, which
agrees with the fueled branch whenever the value is below 128. -/
def varintEncAux : Nat → Nat → List Nat
  | 0, n => [n % 128]
  | fuel + 1, n => if n < 128 then [n] else (n % 128 + 128) :: varintEncAux fuel (n / 128)

/-- Base-128 varint encoding of a natural number, least-significant group
first, continuation bit `0x80` on every byte but the last. -/
def varintEncode (n : Nat) : List Nat :=
  varintEncAux n n

/-- Base-128 varint decoder: consumes bytes until one without the
continuation bit, returning the decoded value and the unconsumed tail. -/
def varintDecode : List Nat → Option (Nat × List Nat)
  | [] => none
  | b :: rest =>
    if b < 128 then some (b, rest)
    else
      match varintDecode rest with
      | some (m, rest2) => some ((b - 128) + 128 * m, rest2)
      | none => none

theorem varintDecAux_round (fuel n : Nat) (h : n ≤ fuel) (rest : List Nat) :
    varintDecode (varintEncAux fuel n ++ rest) = some (n, rest) := by
  induction fuel generalizing n rest with
  | zero =>
    interval_cases n
    simp [varintEncAux, varintDecode]
  | succ fuel ih =>
    by_cases hn : n < 128
    · simp [varintEncAux, hn, varintDecode]
    · have hdiv : n / 128 ≤ fuel := by
        have : n / 128 < n := Nat.div_lt_self (by omega) (by omega)
        omega
      have hbyte : ¬ (n % 128 + 128 < 128) := by omega
      simp only [varintEncAux, if_neg hn, List.cons_append, varintDecode, if_neg hbyte,
        ih _ hdiv]
      congr 1
      ext
      · omega
      · rfl

/-- Round trip of the varint codec: decoding an encoded value consumes
exactly the encoding and returns the value. -/
theorem varintDecode_encode (n : Nat) (rest : List Nat) :
    varintDecode (varintEncode n ++ rest) = some (n, rest) :=
  varintDecAux_round n n (Nat.le_refl n) rest

/-! ## 32-bit little-endian words

`write_u32::<LittleEndian>` and `read_u32::<LittleEndian>` from the
`byteorder` crate, as used for the frame length prefix and the magic
number. -/

/-- An error type for failures that occurred when receiving a message,
translated from `ReadError` in `src/error.rs`.  (Payloads irrelevant to the
claims — the wrapped `std::io::Error` and `ProtobufError` values — are
dropped; the invalid magic number is kept.) -/
inductive ReadError where
  /-- An I/O error occurred when reading from the input stream (here: the
  stream ended before the requested number of bytes was available). -/
  | Input : ReadError
  /-- An error occurred when decoding bytes of the proto message. -/
  | Decode : ReadError
  /-- The decoded proto message was malformed (missing source address). -/
  | Malformed : ReadError
  /-- An invalid magic number has been read from the input stream. -/
  | Magic (magic : Nat) : ReadError
deriving DecidableEq, Repr

/-- An error type for failures that occurred when sending a message,
translated from `WriteError` in `src/error.rs`. -/
inductive WriteError where
  /-- An I/O error occurred when writing to the output stream. -/
  | Output : WriteError
  /-- An error occurred when encoding the proto message to bytes. -/
  | Encode : WriteError
deriving DecidableEq, Repr

/-- The four little-endian bytes written by `write_u32::<LittleEndian>(n)`;
a value at or above `2 ^ 32` is truncated to its low 32 bits, as the `u32`
argument type forces. -/
def le32 (n : Nat) : List Nat :=
  [n % 256, n / 256 % 256, n / 65536 % 256, n / 16777216 % 256]

/-- `read_u32::<LittleEndian>`: consume four bytes and assemble them
least-significant first; fewer than four bytes is an I/O fault. -/
def readU32LE : List Nat → Except ReadError (Nat × List Nat)
  | b0 :: b1 :: b2 :: b3 :: rest => .ok (b0 + 256 * b1 + 65536 * b2 + 16777216 * b3, rest)
  | _ => .error .Input

theorem le32_length (n : Nat) : (le32 n).length = 4 := rfl

/-- Reading back a 32-bit little-endian word recovers the written value
whenever it fits in 32 bits. -/
theorem readU32LE_le32 (n : Nat) (h : n < 4294967296) (rest : List Nat) :
    readU32LE (le32 n ++ rest) = .ok (n, rest) := by
  simp only [le32, List.cons_append, List.nil_append, readU32LE, Except.ok.injEq, Prod.mk.injEq,
    and_true]
  omega

/-! ## Envelope data model

The wire-level envelope, restricted (as in the design's data model) to the
fields of `fleetspeak.common.Message` that the connector reads or writes. -/

/-- `fleetspeak.common.Address`, restricted to `service_name` (field 2), the
only field the connector touches. -/
structure Address where
  /-- UTF-8 bytes of the service name. -/
  service_name : List Nat
deriving DecidableEq, Repr

/-- `google.protobuf.Any`: `type_url` is field 1, `value` is field 2. -/
structure PbAny where
  /-- The type URL string bytes. -/
  type_url : List Nat
  /-- The opaque payload bytes. -/
  value : List Nat
deriving DecidableEq, Repr

/-- The wire-level envelope `fleetspeak.common.Message`, restricted to the
fields the connector consumes or produces: `source` (field 2),
`destination` (field 4), `message_type` (field 5) and `data` (field 7). -/
structure Envelope where
  /-- The address of the sending service, if present. -/
  source : Option Address
  /-- The address of the receiving service, if present. -/
  destination : Option Address
  /-- UTF-8 bytes of the message type tag. -/
  message_type : List Nat
  /-- The opaque payload, if present. -/
  data : Option PbAny
deriving DecidableEq, Repr

/-- The caller-facing message (`Message` in `crates/fleetspeak/src/lib.rs`,
`Packet` in `src/client/connection.rs`): service name, optional kind tag and
payload bytes. -/
structure Message where
  /-- A name of the server-side service that sent or should receive the data. -/
  service : List Nat
  /-- An optional message type that can be used by the server-side service. -/
  kind : Option (List Nat)
  /-- The payload bytes sent to the specified service. -/
  data : List Nat
deriving DecidableEq, Repr

/-! ## Length-delimited protobuf fields

All fields in play are wire type 2 (length-delimited) with field numbers
at most 7, so each tag is the single byte `8 * field + 2`. -/

/-- Serialize one length-delimited field: tag byte, varint payload length,
payload bytes. -/
def encLD (f : Nat) (p : List Nat) : List Nat :=
  (8 * f + 2) :: (varintEncode p.length ++ p)

/-- Try to consume one length-delimited field with number `f` from the head
of the stream.  Returns `(some payload, rest)` when the tag matches,
`(none, stream)` when the head is a different tag (or the stream is empty),
and `none` on a corrupt length. -/
def parseLD (f : Nat) : List Nat → Option (Option (List Nat) × List Nat)
  | [] => some (none, [])
  | b :: rest =>
    if b = 8 * f + 2 then
      match varintDecode rest with
      | some (len, rest2) =>
        if len ≤ rest2.length then some (some (rest2.take len), rest2.drop len) else none
      | none => none
    else some (none, b :: rest)

@[simp] theorem parseLD_nil (f : Nat) : parseLD f [] = some (none, []) := rfl

/-- Consuming a field that is present at the head of the stream returns its
payload and leaves the rest. -/
theorem parseLD_hit (f : Nat) (p rest : List Nat) :
    parseLD f (encLD f p ++ rest) = some (some p, rest) := by
  simp only [encLD, List.cons_append, List.append_assoc, parseLD, if_pos rfl,
    varintDecode_encode, List.take_left, List.drop_left]
  simp

/-- Consuming a field that is present at the head of the stream, with
nothing after it. -/
theorem parseLD_hit' (f : Nat) (p : List Nat) :
    parseLD f (encLD f p) = some (some p, []) := by
  have := parseLD_hit f p []
  rwa [List.append_nil] at this

theorem parseLD_cons_ne (f b : Nat) (rest : List Nat) (h : b ≠ 8 * f + 2) :
    parseLD f (b :: rest) = some (none, b :: rest) := by
  simp [parseLD, h]

/-- A field with a different number at the head of the stream is left in
place. -/
theorem parseLD_miss (f g : Nat) (h : g ≠ f) (p rest : List Nat) :
    parseLD f (encLD g p ++ rest) = some (none, encLD g p ++ rest) := by
  simp only [encLD, List.cons_append]
  exact parseLD_cons_ne f _ _ (by omega)

/-- A field with a different number at the head of the stream, with nothing
after it, is left in place. -/
theorem parseLD_miss' (f g : Nat) (h : g ≠ f) (p : List Nat) :
    parseLD f (encLD g p) = some (none, encLD g p) := by
  have := parseLD_miss f g h p []
  rwa [List.append_nil] at this

/-! ## Schema codec for the envelope

The generated serializer emits present fields in increasing field-number
order and skips scalar fields holding their default value (empty strings and
byte strings); a present nested message is emitted even when all its fields
are default. -/

/-- Serialize an `Address`: `service_name` is field 2, skipped when empty. -/
def Address.encode (a : Address) : List Nat :=
  if a.service_name = [] then [] else encLD 2 a.service_name

/-- Parse an `Address` from exactly the given bytes. -/
def Address.parse (s : List Nat) : Option Address :=
  match parseLD 2 s with
  | none => none
  | some (nameB, s1) => if s1 = [] then some ⟨nameB.getD []⟩ else none

/-- Serialize a `google.protobuf.Any`: `type_url` is field 1, `value` is
field 2, each skipped when empty. -/
def PbAny.encode (x : PbAny) : List Nat :=
  (if x.type_url = [] then [] else encLD 1 x.type_url) ++
    (if x.value = [] then [] else encLD 2 x.value)

/-- Parse a `google.protobuf.Any` from exactly the given bytes. -/
def PbAny.parse (s : List Nat) : Option PbAny :=
  match parseLD 1 s with
  | none => none
  | some (urlB, s1) =>
    match parseLD 2 s1 with
    | none => none
    | some (valB, s2) =>
      if s2 = [] then some ⟨urlB.getD [], valB.getD []⟩ else none

/-- Serialize an `Envelope`: `source` is field 2, `destination` is field 4,
`message_type` is field 5 (skipped when empty), `data` is field 7. -/
def Envelope.encode (e : Envelope) : List Nat :=
  (match e.source with | none => [] | some a => encLD 2 a.encode) ++
    ((match e.destination with | none => [] | some a => encLD 4 a.encode) ++
      ((if e.message_type = [] then [] else encLD 5 e.message_type) ++
        (match e.data with | none => [] | some d => encLD 7 d.encode)))

/-- Lift a nested-message parser over an optional field payload. -/
def parseOptMsg {α : Type} (p : List Nat → Option α) : Option (List Nat) → Option (Option α)
  | none => some none
  | some b => (p b).map some

@[simp] theorem parseOptMsg_none {α : Type} (p : List Nat → Option α) :
    parseOptMsg p none = some none := rfl

@[simp] theorem parseOptMsg_some {α : Type} (p : List Nat → Option α) (b : List Nat) :
    parseOptMsg p (some b) = (p b).map some := rfl

/-- Parse an `Envelope` from exactly the given bytes. -/
def Envelope.parse (s : List Nat) : Option Envelope :=
  match parseLD 2 s with
  | none => none
  | some (srcB, s1) =>
    match parseLD 4 s1 with
    | none => none
    | some (dstB, s2) =>
      match parseLD 5 s2 with
      | none => none
      | some (mtB, s3) =>
        match parseLD 7 s3 with
        | none => none
        | some (datB, s4) =>
          if s4 = [] then
            match parseOptMsg Address.parse srcB, parseOptMsg Address.parse dstB,
                parseOptMsg PbAny.parse datB with
            | some src, some dst, some dat => some ⟨src, dst, mtB.getD [], dat⟩
            | _, _, _ => none
          else none

/-- Round trip of the address codec. -/
theorem address_parse_encode (a : Address) : Address.parse a.encode = some a := by
  obtain ⟨n⟩ := a
  by_cases h : n = [] <;>
    simp [Address.parse, Address.encode, h, parseLD_hit']

/-- Round trip of the `Any` codec. -/
theorem pbany_parse_encode (x : PbAny) : PbAny.parse x.encode = some x := by
  obtain ⟨u, v⟩ := x
  by_cases hu : u = [] <;> by_cases hv : v = [] <;>
    simp [PbAny.parse, PbAny.encode, hu, hv, parseLD_hit, parseLD_hit',
      parseLD_miss' 1 2 (by omega)]

/-- Round trip of the envelope codec: parsing a serialized envelope recovers
the envelope. -/
theorem envelope_parse_encode (e : Envelope) : Envelope.parse e.encode = some e := by
  obtain ⟨src, dst, mt, dat⟩ := e
  rcases src with _ | a <;> rcases dst with _ | b <;> rcases dat with _ | d <;>
    by_cases hmt : mt = [] <;>
      simp [Envelope.parse, Envelope.encode, hmt, parseLD_hit, parseLD_hit',
        parseLD_miss 4 5 (by omega), parseLD_miss 4 7 (by omega), parseLD_miss' 4 5 (by omega),
        parseLD_miss' 4 7 (by omega), parseLD_miss 2 4 (by omega), parseLD_miss 2 5 (by omega),
        parseLD_miss 2 7 (by omega), parseLD_miss' 2 4 (by omega), parseLD_miss' 2 5 (by omega),
        parseLD_miss' 2 7 (by omega), parseLD_miss 5 7 (by omega), parseLD_miss' 5 7 (by omega),
        address_parse_encode, pbany_parse_encode]

/-! ## Framing codec and handshake

Translated from `write_proto`, `read_proto`, `write_magic`, `read_magic`
and `handshake` in `crates/fleetspeak/src/io.rs` (equivalently `write_raw`,
`read_raw`, … in `src/connection.rs`, and the `Connection` methods in
`src/client/connection.rs`). -/

/-- The Fleetspeak magic number (`const MAGIC: u32 = 0xf1ee1001`). -/
def MAGIC : Nat := 0xf1ee1001

/-- `write_magic`: the bytes put on the output stream, a 32-bit
little-endian magic number. -/
def write_magic : List Nat := le32 MAGIC

/-- `read_magic`: read a 32-bit little-endian word and compare it against
the magic constant; a mismatch is a framing fault carrying the value read. -/
def read_magic (input : List Nat) : Except ReadError (List Nat) :=
  match readU32LE input with
  | .error e => .error e
  | .ok (magic, rest) => if magic = MAGIC then .ok rest else .error (.Magic magic)

/-- `write_proto`: one frame — the payload length as a 32-bit little-endian
word, the serialized envelope, the magic number.  (`compute_size`/`buf.len()
as u32` force the prefix through `u32`, which `le32` models by truncation.) -/
def write_proto (e : Envelope) : List Nat :=
  le32 e.encode.length ++ (e.encode ++ write_magic)

/-- `read_proto`: read the length prefix, read exactly that many payload
bytes (an exhausted stream is an I/O fault), check the trailing magic, then
parse the payload as an envelope (a parse failure is a decode fault). -/
def read_proto (input : List Nat) : Except ReadError (Envelope × List Nat) :=
  match readU32LE input with
  | .error e => .error e
  | .ok (len, input1) =>
    if len ≤ input1.length then
      match read_magic (input1.drop len) with
      | .error e => .error e
      | .ok input2 =>
        match Envelope.parse (input1.take len) with
        | some e => .ok (e, input2)
        | none => .error .Decode
    else .error .Input

/-- `handshake(input, output)`: write the magic to the output and flush,
then read and check the magic from the input.  The first component is what
was written to the output stream, the second the result of the read. -/
def handshake (input : List Nat) : List Nat × Except ReadError (List Nat) :=
  (write_magic, read_magic input)

/-- A Fleetspeak client connection object after a successful handshake,
holding the remaining inbound stream (`Connection` in
`src/client/connection.rs`). -/
structure Connection where
  /-- The unconsumed bytes of the inbound stream. -/
  input : List Nat
deriving DecidableEq, Repr

/-- `Connection::new`: perform the handshake; on failure the error is
propagated and no connection value exists.  The first component is what was
written to the output stream. -/
def Connection.new (input : List Nat) : List Nat × Except ReadError Connection :=
  (write_magic, (read_magic input).map Connection.mk)

/-- Reading back the magic frame succeeds and consumes exactly four bytes. -/
theorem read_magic_write_magic (rest : List Nat) :
    read_magic (write_magic ++ rest) = .ok rest := rfl

/-- Frame round trip: a frame written by `write_proto` reads back as the
same envelope, leaving the rest of the stream untouched, whenever the
serialized payload length fits the 32-bit length field. -/
theorem read_proto_write_proto (e : Envelope) (rest : List Nat)
    (h : e.encode.length < 4294967296) :
    read_proto (write_proto e ++ rest) = .ok (e, rest) := by
  rw [write_proto, List.append_assoc, List.append_assoc]
  rw [read_proto.eq_def, readU32LE_le32 _ h]
  simp only [List.length_append, List.take_left, List.drop_left,
    read_magic_write_magic, envelope_parse_encode]
  rw [if_pos (by omega)]

/-! ## Message read/write paths

Translated from `write_message` and `read_message` in
`crates/fleetspeak/src/io.rs` (equivalently `Connection::send` and
`Connection::receive` in `src/client/connection.rs`). -/

/-- `write_message`: build an envelope from the caller's message —
`message_type` is the kind or the empty string, `destination.service_name`
is the service, `data.value` is the payload (with `data` always made
present and `type_url` left empty) — and write one frame. -/
def write_message (m : Message) : List Nat :=
  write_proto
    { source := none
      destination := some ⟨m.service⟩
      message_type := m.kind.getD []
      data := some ⟨[], m.data⟩ }

/-- `read_message`: decode one frame; fail with a malformed-message fault
when the envelope has no source address; treat absent data as the default
(empty) payload; return the service name, `Some` of the message type and
the payload bytes. -/
def read_message (input : List Nat) : Except ReadError (Message × List Nat) :=
  match read_proto input with
  | .error e => .error e
  | .ok (env, rest) =>
    match env.source with
    | none => .error .Malformed
    | some src =>
      let dataAny := match env.data with
        | some d => d
        | none => ⟨[], []⟩
      .ok ({ service := src.service_name, kind := some env.message_type,
             data := dataAny.value }, rest)

/-- `Connection::emit` (`src/client/connection.rs`): prost-encode the
envelope into a growable buffer (which cannot fail), then write
`buf.len() as u32`, the buffer and the magic.  The unchecked `as u32` cast
is modelled by `le32`'s truncation; no length check is performed. -/
def emit (e : Envelope) : Except WriteError (List Nat) :=
  .ok (le32 e.encode.length ++ (e.encode ++ write_magic))

/-! ## Heartbeat throttle

Translated from `heartbeat_with_throttle` in `crates/fleetspeak/src/lib.rs`
(equivalently `src/lib.rs`).  The shared `LAST_HEARTBEAT` state is passed
explicitly; instants are naturals and `Instant::elapsed` is truncated
subtraction.  The returned flag records whether a heartbeat frame was
sent. -/

/-- One call of `heartbeat_with_throttle rate` at instant `now` with
last-sent state `last`: skip when a previous heartbeat happened less than
`rate` ago, otherwise send and update the timestamp. -/
def heartbeat_with_throttle (rate now : Nat) (last : Option Nat) : Option Nat × Bool :=
  match last with
  | some t => if now - t < rate then (some t, false) else (some now, true)
  | none => (some now, true)

end Fleetspeak

namespace Fleetspeak

/-! ## Claim C1 — frame round trip -/

/-- C1: for every envelope whose serialized payload length fits the 32-bit
length field, encoding it into a frame (4-byte little-endian length, payload
bytes, 4-byte little-endian magic) and decoding that byte sequence back
yields an envelope equal to the original, leaving any following bytes
unconsumed. -/
theorem frame_round_trip (e : Envelope) (rest : List Nat)
    (h : e.encode.length < 4294967296) :
    read_proto (write_proto e ++ rest) = .ok (e, rest) :=
  read_proto_write_proto e rest h

theorem frame_round_trip_witness :
    (⟨some ⟨[97]⟩, some ⟨[98]⟩, [99], some ⟨[100], [101, 102]⟩⟩ : Envelope).encode.length
        < 4294967296 ∧
      read_proto
          (write_proto ⟨some ⟨[97]⟩, some ⟨[98]⟩, [99], some ⟨[100], [101, 102]⟩⟩ ++ [7]) =
        .ok (⟨some ⟨[97]⟩, some ⟨[98]⟩, [99], some ⟨[100], [101, 102]⟩⟩, [7]) :=
  ⟨by decide, frame_round_trip _ [7] (by decide)⟩

/-! ## Claim C2 — handshake -/

/-- C2: `handshake` writes the 4-byte little-endian magic `0xF1EE1001`
(bytes `01 10 EE F1`) to the output before reading, then reads exactly four
bytes from the input; it succeeds if and only if those bytes are `01 10 EE
F1`, and for any other 4-byte value it fails with a framing fault reporting
the (little-endian) value read, in which case `Connection::new` propagates
the fault and constructs no connection. -/
theorem handshake_magic (b0 b1 b2 b3 : Nat) (rest : List Nat)
    (h0 : b0 < 256) (h1 : b1 < 256) (h2 : b2 < 256) (h3 : b3 < 256) :
    (handshake (b0 :: b1 :: b2 :: b3 :: rest)).1 = [0x01, 0x10, 0xee, 0xf1] ∧
      (b0 + 256 * b1 + 65536 * b2 + 16777216 * b3 = MAGIC ↔
        (b0, b1, b2, b3) = (0x01, 0x10, 0xee, 0xf1)) ∧
      (b0 + 256 * b1 + 65536 * b2 + 16777216 * b3 = MAGIC →
        (handshake (b0 :: b1 :: b2 :: b3 :: rest)).2 = .ok rest ∧
          (Connection.new (b0 :: b1 :: b2 :: b3 :: rest)).2 = .ok ⟨rest⟩) ∧
      (b0 + 256 * b1 + 65536 * b2 + 16777216 * b3 ≠ MAGIC →
        (handshake (b0 :: b1 :: b2 :: b3 :: rest)).2 =
            .error (.Magic (b0 + 256 * b1 + 65536 * b2 + 16777216 * b3)) ∧
          (Connection.new (b0 :: b1 :: b2 :: b3 :: rest)).2 =
            .error (.Magic (b0 + 256 * b1 + 65536 * b2 + 16777216 * b3))) := by
  refine ⟨rfl, ⟨fun h => ?_, fun h => by simp_all [MAGIC]⟩, fun h => ?_, fun h => ?_⟩
  · simp only [MAGIC] at h
    have : b0 = 0x01 ∧ b1 = 0x10 ∧ b2 = 0xee ∧ b3 = 0xf1 := by omega
    simp [this.1, this.2.1, this.2.2.1, this.2.2.2]
  · simp [handshake, Connection.new, read_magic, readU32LE, h, Except.map]
  · simp [handshake, Connection.new, read_magic, readU32LE, h, Except.map]

theorem handshake_magic_witness :
    (handshake [0x37, 0x13, 0xee, 0xf1]).2 = .error (.Magic 0xf1ee1337) ∧
      (handshake [0x01, 0x10, 0xee, 0xf1]).2 = .ok [] ∧
      (Connection.new [0x01, 0x10, 0xee, 0xf1]).2 = .ok ⟨[]⟩ :=
  ⟨((handshake_magic 0x37 0x13 0xee 0xf1 [] (by decide) (by decide) (by decide)
      (by decide)).2.2.2 (by decide)).1,
    ((handshake_magic 0x01 0x10 0xee 0xf1 [] (by decide) (by decide) (by decide)
      (by decide)).2.2.1 (by decide)).1,
    ((handshake_magic 0x01 0x10 0xee 0xf1 [] (by decide) (by decide) (by decide)
      (by decide)).2.2.1 (by decide)).2⟩

/-! ## Claim C3 — missing source service -/

/-- C3: receiving a frame whose envelope lacks a source service fails with
the malformed-message fault and never returns a message. -/
theorem receive_missing_source (e : Envelope) (rest : List Nat)
    (hsrc : e.source = none) (h : e.encode.length < 4294967296) :
    read_message (write_proto e ++ rest) = .error .Malformed := by
  rw [read_message.eq_def, read_proto_write_proto e rest h]
  simp [hsrc]

theorem receive_missing_source_witness :
    (⟨none, some ⟨[97]⟩, [98], some ⟨[], [99]⟩⟩ : Envelope).source = none ∧
      read_message (write_proto ⟨none, some ⟨[97]⟩, [98], some ⟨[], [99]⟩⟩ ++ []) =
        .error .Malformed :=
  ⟨rfl, receive_missing_source ⟨none, some ⟨[97]⟩, [98], some ⟨[], [99]⟩⟩ [] rfl (by decide)⟩

/-! ## Claim C4 — absent payload defaults -/

/-- C4: receiving a frame whose envelope has a source service but no
payload succeeds and returns a message whose data is the default value —
the empty byte string, which the schema codec decodes as the zero/default
value of any requested payload type; an absent payload alone never causes
the receive to error. -/
theorem receive_missing_payload (e : Envelope) (a : Address) (rest : List Nat)
    (hsrc : e.source = some a) (hdat : e.data = none)
    (h : e.encode.length < 4294967296) :
    read_message (write_proto e ++ rest) =
      .ok ({ service := a.service_name, kind := some e.message_type, data := [] }, rest) := by
  rw [read_message.eq_def, read_proto_write_proto e rest h]
  simp [hsrc, hdat]

theorem receive_missing_payload_witness :
    (⟨some ⟨[103]⟩, none, [104], none⟩ : Envelope).data = none ∧
      read_message (write_proto ⟨some ⟨[103]⟩, none, [104], none⟩ ++ []) =
        .ok ({ service := [103], kind := some [104], data := [] }, []) :=
  ⟨rfl, receive_missing_payload ⟨some ⟨[103]⟩, none, [104], none⟩ ⟨[103]⟩ [] rfl rfl (by decide)⟩

/-! ## Claim C5 — oversized payload is truncated, not rejected -/

/-- The failing input for C5: an envelope whose serialized payload is
longer than the 32-bit length field can represent (its `data.value` alone
is `2 ^ 32` bytes). -/
def oversizedEnvelope : Envelope :=
  ⟨none, none, [], some ⟨[], List.replicate 4294967296 0⟩⟩

/-- The serialized envelope is at least as long as the payload bytes it
carries. -/
theorem data_value_length_le_encode_length (e : Envelope) (d : PbAny)
    (hd : e.data = some d) : d.value.length ≤ e.encode.length := by
  obtain ⟨src, dst, mt, dat⟩ := e
  simp only at hd
  subst hd
  simp only [Envelope.encode, List.length_append]
  have h2 : d.value.length ≤ d.encode.length := by
    by_cases hv : d.value = []
    · simp [hv]
    · simp only [PbAny.encode, List.length_append, if_neg hv, encLD, List.length_cons,
        List.length_append]
      omega
  have h1 : d.encode.length ≤ (encLD 7 d.encode).length := by
    simp only [encLD, List.length_cons, List.length_append]
    omega
  omega

/-- C5 (code bug): `Connection::emit` casts `buf.len()` to `u32` without
any range check, so an envelope whose serialized payload does not fit the
32-bit length field is NOT rejected with an `EncodeError`: `emit` succeeds
and writes a frame whose 4-byte length prefix holds the payload length
reduced modulo `2 ^ 32`, which cannot equal the actual payload length. -/
theorem emit_oversized_no_error :
    emit oversizedEnvelope =
        .ok (le32 oversizedEnvelope.encode.length ++
          (oversizedEnvelope.encode ++ write_magic)) ∧
      4294967296 ≤ oversizedEnvelope.encode.length ∧
      le32 oversizedEnvelope.encode.length =
        le32 (oversizedEnvelope.encode.length % 4294967296) ∧
      oversizedEnvelope.encode.length % 4294967296 ≠ oversizedEnvelope.encode.length := by
  have hlen : 4294967296 ≤ oversizedEnvelope.encode.length := by
    have h := data_value_length_le_encode_length oversizedEnvelope
      ⟨[], List.replicate 4294967296 0⟩ rfl
    simp only [List.length_replicate] at h
    exact h
  refine ⟨rfl, hlen, ?_, ?_⟩
  · simp only [le32, List.cons.injEq, and_true]
    omega
  · have := Nat.mod_lt oversizedEnvelope.encode.length (show 0 < 4294967296 by omega)
    omega

/-! ## Claim C6 — heartbeat throttle -/

/-- C6: starting from the initial (empty) throttle state, the first
`heartbeat_with_throttle rate` call sends a frame and records its instant;
a second call less than `rate` later sends nothing and leaves the recorded
instant unchanged, so exactly one frame is sent in total; a second call
more than `rate` later sends a second frame and updates the recorded
instant. -/
theorem heartbeat_with_throttle_two_calls (rate t1 t2 : Nat) :
    heartbeat_with_throttle rate t1 none = (some t1, true) ∧
      (t2 - t1 < rate → heartbeat_with_throttle rate t2 (some t1) = (some t1, false)) ∧
      (rate < t2 - t1 → heartbeat_with_throttle rate t2 (some t1) = (some t2, true)) := by
  refine ⟨rfl, fun h => ?_, fun h => ?_⟩
  · simp [heartbeat_with_throttle, h]
  · simp [heartbeat_with_throttle]
    omega

theorem heartbeat_with_throttle_two_calls_witness :
    heartbeat_with_throttle 5 0 none = (some 0, true) ∧
      heartbeat_with_throttle 5 3 (some 0) = (some 0, false) ∧
      heartbeat_with_throttle 5 7 (some 0) = (some 7, true) :=
  ⟨(heartbeat_with_throttle_two_calls 5 0 3).1,
    (heartbeat_with_throttle_two_calls 5 0 3).2.1 (by decide),
    (heartbeat_with_throttle_two_calls 5 0 7).2.2 (by decide)⟩

/-! ## Claim C7 — the envelope built by send -/

/-- C7: `send`/`write_message` produces exactly one frame; decoding it
back yields an envelope whose `message_type` is the packet's kind (or the
empty string when the kind is `None`), whose `destination.service_name` is
the packet's service, and whose `data.value` is the packet's payload bytes
(with no source and no type URL), with the following stream untouched. -/
theorem send_envelope_fields (m : Message) (rest : List Nat)
    (h : (⟨none, some ⟨m.service⟩, m.kind.getD [], some ⟨[], m.data⟩⟩ :
        Envelope).encode.length < 4294967296) :
    read_proto (write_message m ++ rest) =
      .ok (⟨none, some ⟨m.service⟩, m.kind.getD [], some ⟨[], m.data⟩⟩, rest) :=
  read_proto_write_proto _ rest h

theorem send_envelope_fields_witness :
    read_proto (write_message ⟨[103, 114, 101, 101, 116, 101, 114], none, [1, 2, 3, 4, 5]⟩
        ++ []) =
      .ok (⟨none, some ⟨[103, 114, 101, 101, 116, 101, 114]⟩, [],
        some ⟨[], [1, 2, 3, 4, 5]⟩⟩, []) :=
  send_envelope_fields ⟨[103, 114, 101, 101, 116, 101, 114], none, [1, 2, 3, 4, 5]⟩ []
    (by decide)

/-! ## Claim C8 — empty source service is accepted -/

/-- C8 counterexample: a frame whose envelope carries a PRESENT source
address with an EMPTY service name is accepted by `receive`, which returns
a message whose service field is the empty string — the claim that such an
envelope is treated as a protocol fault, and that `receive` never returns
a message with an empty service, is false on the code. -/
theorem receive_empty_source_accepted :
    read_message (write_proto ⟨some ⟨[]⟩, none, [], none⟩) =
        .ok ({ service := [], kind := some [], data := [] }, []) ∧
      ({ service := [], kind := some [], data := [] } : Message).service = [] :=
  ⟨rfl, rfl⟩

/-- C8 amended: acceptance by `receive` depends only on the PRESENCE of
the envelope's source field — an absent source is a malformed-message
fault, while any present source (its service name may be empty) is
accepted and its service name, empty or not, is returned verbatim. -/
theorem receive_source_presence (e : Envelope) (rest : List Nat)
    (h : e.encode.length < 4294967296) :
    (e.source = none → read_message (write_proto e ++ rest) = .error .Malformed) ∧
      (∀ a : Address, e.source = some a →
        read_message (write_proto e ++ rest) =
          .ok ({ service := a.service_name, kind := some e.message_type,
                 data := (e.data.getD ⟨[], []⟩).value }, rest)) := by
  constructor
  · intro hs
    rw [read_message.eq_def, read_proto_write_proto e rest h]
    simp [hs]
  · intro a hs
    rw [read_message.eq_def, read_proto_write_proto e rest h]
    rcases hd : e.data with _ | d <;> simp [hs, hd]

theorem receive_source_presence_witness :
    read_message (write_proto ⟨none, none, [], none⟩ ++ []) = .error .Malformed ∧
      read_message (write_proto ⟨some ⟨[]⟩, none, [], none⟩ ++ []) =
        .ok ({ service := [], kind := some [], data := [] }, []) :=
  ⟨(receive_source_presence ⟨none, none, [], none⟩ [] (by decide)).1 rfl,
    (receive_source_presence ⟨some ⟨[]⟩, none, [], none⟩ [] (by decide)).2 ⟨[]⟩ rfl⟩

/-! ## Claim C10 — the kind of a received message is never `None` -/

/-- Every message returned by a successful `read_message` has
`kind = Some …`. -/
theorem read_message_ok_kind (input : List Nat) (msg : Message) (r : List Nat)
    (h : read_message input = .ok (msg, r)) : ∃ t, msg.kind = some t := by
  obtain ⟨s, k, d⟩ := msg
  rw [read_message.eq_def] at h
  rcases hp : read_proto input with err | ⟨env, r2⟩ <;> rw [hp] at h
  · simp at h
  · rcases hs : env.source with _ | src <;> simp only [hs] at h
    · simp at h
    · simp only [Except.ok.injEq, Prod.mk.injEq, Message.mk.injEq] at h
      exact ⟨env.message_type, h.1.2.1.symm⟩

/-- C10: every successfully received message has `kind = Some` of the wire
envelope's `message_type`, never `None`; in particular a packet sent with
`kind = None` goes out with `message_type = ""`, and — once the routing
layer stamps a source on the envelope — is received back with
`kind = Some ""` rather than `None`, so the kind does not round-trip
through send followed by receive. -/
theorem receive_kind_always_some (m : Message) (a : Address) (rest : List Nat)
    (hk : m.kind = none)
    (hsent : (⟨none, some ⟨m.service⟩, m.kind.getD [], some ⟨[], m.data⟩⟩ :
        Envelope).encode.length < 4294967296)
    (hrecv : (⟨some a, some ⟨m.service⟩, m.kind.getD [], some ⟨[], m.data⟩⟩ :
        Envelope).encode.length < 4294967296) :
    (∀ input msg r, read_message input = .ok (msg, r) → ∃ t, msg.kind = some t) ∧
      (∃ env, read_proto (write_message m) = .ok (env, []) ∧ env.message_type = [] ∧
        read_message (write_proto { env with source := some a } ++ rest) =
          .ok ({ service := a.service_name, kind := some [], data := m.data }, rest) ∧
        ({ service := a.service_name, kind := some [], data := m.data } : Message).kind ≠
          m.kind) := by
  obtain ⟨s, k, d⟩ := m
  simp only at hk
  subst hk
  refine ⟨read_message_ok_kind, ⟨none, some ⟨s⟩, [], some ⟨[], d⟩⟩, ?_, rfl, ?_, by simp⟩
  · have h0 := read_proto_write_proto ⟨none, some ⟨s⟩, [], some ⟨[], d⟩⟩ [] hsent
    rwa [List.append_nil] at h0
  · rw [read_message.eq_def,
      read_proto_write_proto ⟨some a, some ⟨s⟩, [], some ⟨[], d⟩⟩ rest hrecv]

theorem receive_kind_always_some_witness :
    (∀ input msg r, read_message input = .ok (msg, r) → ∃ t, msg.kind = some t) ∧
      (∃ env, read_proto
            (write_message ⟨[103, 114, 101, 101, 116, 101, 114], none, [1, 2, 3, 4, 5]⟩) =
          .ok (env, []) ∧ env.message_type = [] ∧
        read_message (write_proto { env with source := some ⟨[115]⟩ } ++ []) =
          .ok ({ service := [115], kind := some [], data := [1, 2, 3, 4, 5] }, []) ∧
        ({ service := [115], kind := some [], data := [1, 2, 3, 4, 5] } : Message).kind ≠
          (⟨[103, 114, 101, 101, 116, 101, 114], none, [1, 2, 3, 4, 5]⟩ : Message).kind) :=
  receive_kind_always_some ⟨[103, 114, 101, 101, 116, 101, 114], none, [1, 2, 3, 4, 5]⟩
    ⟨[115]⟩ [] rfl (by decide) (by decide)

end Fleetspeak
